import Mathlib

/-!
Verification of the meeting-audio lifecycle and asynchronous processing
status model of the notulen repository, as implemented in
`src/frontend/src/containers/MeetingDetailsContainer.vue`,
`src/frontend/src/hooks/useMeetings.ts` and
`src/frontend/src/hooks/useAudioFiles.ts`.

The frontend state (Vue refs and computed properties) is embedded as
explicit record types; each hook operation becomes a pure function from
the outcome of its underlying HTTP request (an `Except String _`
environment value) and the current state to the next state and the
returned value.  JavaScript truthiness of the strings and records the
code inspects is modelled explicitly where the code relies on it.
-/

/-- A meeting row, as in the `Meeting` interface of `useMeetings.ts`.
`transcript` is a nullable string; `summary` is a nullable JSON record,
modelled as an association list of string fields (the code only ever
reads its key count and its `summary` field). -/
structure Meeting where
  id : String
  group_id : String
  name : String
  meeting_datetime : String
  transcript : Option String
  summary : Option (List (String × String))
  created_at : String
deriving DecidableEq, Repr

/-- An audio-file row, as in the `AudioFile` interface of `useAudioFiles.ts`. -/
structure AudioFile where
  id : String
  group_id : String
  bucket_name : String
  path : String
  original_filename : Option String
  mimetype : Option String
  size : Option Nat
  meeting_datetime : Option String
  meeting_id : Option String
  created_at : String
deriving DecidableEq, Repr

/-- The derived tri-state processing classification of the spec. -/
inductive ProcessingStatus where
  | empty
  | processing
  | ready
deriving DecidableEq, Repr

/-- JavaScript `String.prototype.trim`: strip leading and trailing
whitespace.  Implemented on the character list so that it evaluates
inside the kernel. -/
def jsTrim (s : String) : String :=
  String.mk (((s.data.dropWhile Char.isWhitespace).reverse.dropWhile
    Char.isWhitespace).reverse)

/-- `hasTranscriptContent` computed property
(MeetingDetailsContainer.vue, lines 101-103):
`!!currentMeeting.value?.transcript && currentMeeting.value.transcript.trim() !== ''`.
JavaScript string truthiness (`!!t`) is non-emptiness. -/
def hasTranscriptContent (m : Option Meeting) : Bool :=
  match m with
  | none => false
  | some mm =>
    match mm.transcript with
    | none => false
    | some t => t != "" && jsTrim t != ""

/-- `hasSummaryContent` computed property
(`MeetingDetailsContainer.vue`, lines 90-98): false when the summary is
null, false when it has no keys, otherwise the truthiness of its
`summary` field. -/
def hasSummaryContent (m : Option Meeting) : Bool :=
  match m with
  | none => false
  | some mm =>
    match mm.summary with
    | none => false
    | some fields =>
      if fields.length == 0 then false
      else
        match fields.lookup "summary" with
        | none => false
        | some v => v != ""

/-- `isWaitingForProcessing` computed property
(`MeetingDetailsContainer.vue`, lines 83-87):
`audioFiles.value.length > 0 && (!hasTranscriptContent.value || !hasSummaryContent.value)`. -/
def isWaitingForProcessingOf (m : Option Meeting) (audio : List AudioFile) : Bool :=
  decide (0 < audio.length) && (!(hasTranscriptContent m) || !(hasSummaryContent m))

/-- The processing-status resolver derived from the view: the template
shows the "no recordings" state exactly when `audioFiles.length === 0`,
the processing indicator exactly when `isWaitingForProcessing`, and the
full transcript/summary sections otherwise. -/
def resolve (m : Option Meeting) (audio : List AudioFile) : ProcessingStatus :=
  if audio.length == 0 then .empty
  else if isWaitingForProcessingOf m audio then .processing
  else .ready

/-- The spec's `hasTranscript`: transcript is non-null and, after
trimming whitespace, non-empty. -/
def specHasTranscript (mm : Meeting) : Prop :=
  ∃ t, mm.transcript = some t ∧ jsTrim t ≠ ""

/-- The spec's `hasSummary`: summary is non-null, has at least one key,
and its `summary` field is non-empty. -/
def specHasSummary (mm : Meeting) : Prop :=
  ∃ fields, mm.summary = some fields ∧ 1 ≤ fields.length ∧
    ∃ v, fields.lookup "summary" = some v ∧ v ≠ ""

/-- JavaScript `err.message || fallback`: the recorded error message is
the thrown message unless it is empty (falsy), in which case the
hard-coded fallback string of the `catch` block is used. -/
def errMsg (e fallback : String) : String :=
  if e = "" then fallback else e

/-- The reactive refs of one `useMeetings()` hook instance
(`useMeetings.ts`, lines 46-50). -/
structure MeetingsHookState where
  meetings : List Meeting
  currentMeeting : Option Meeting
  meetingAudioFiles : List AudioFile
  loading : Bool
  error : Option String
deriving DecidableEq, Repr

/-- Result of one hook operation of `useMeetings`: the next hook state,
the value the async function resolves with, and the ordered traces of
the writes it performed to the `loading` ref and to the `error` ref. -/
structure HookOut (ρ : Type) where
  state : MeetingsHookState
  result : ρ
  loadW : List Bool
  errW : List (Option String)
deriving Repr

/-- `fetchMeeting(meetingId, showLoading = true)` (`useMeetings.ts`,
lines 124-148).  The outcome of the underlying GET request is the
`res` environment argument; the hook never rethrows: on failure it
records the message in `error` and resolves with `null`. -/
def fetchMeeting (showLoading : Bool) (res : Except String Meeting)
    (h : MeetingsHookState) : HookOut (Option Meeting) :=
  let w1 : List Bool := if showLoading then [true] else []
  let h0 := if showLoading then {h with loading := true} else h
  let h1 := {h0 with error := none}
  match res with
  | .ok m =>
    let h2 := {h1 with currentMeeting := some m}
    let w2 : List Bool := if showLoading then [false] else []
    ⟨if showLoading then {h2 with loading := false} else h2,
      some m, w1 ++ w2, [none]⟩
  | .error e =>
    let msg := errMsg e "Failed to fetch meeting"
    let h2 := {h1 with error := some msg}
    let w2 : List Bool := if showLoading then [false] else []
    ⟨if showLoading then {h2 with loading := false} else h2,
      none, w1 ++ w2, [none, some msg]⟩

/-- `fetchAudioByMeetingId(meetingId, showLoading = true)`
(`useMeetings.ts`, lines 307-334).  On failure it records the message
in `error` and resolves with the empty list. -/
def fetchAudioByMeetingId (showLoading : Bool)
    (res : Except String (List AudioFile))
    (h : MeetingsHookState) : HookOut (List AudioFile) :=
  let w1 : List Bool := if showLoading then [true] else []
  let h0 := if showLoading then {h with loading := true} else h
  let h1 := {h0 with error := none}
  match res with
  | .ok a =>
    let h2 := {h1 with meetingAudioFiles := a}
    let w2 : List Bool := if showLoading then [false] else []
    ⟨if showLoading then {h2 with loading := false} else h2,
      a, w1 ++ w2, [none]⟩
  | .error e =>
    let msg := errMsg e "Failed to fetch audio files for meeting"
    let h2 := {h1 with error := some msg}
    let w2 : List Bool := if showLoading then [false] else []
    ⟨if showLoading then {h2 with loading := false} else h2,
      [], w1 ++ w2, [none, some msg]⟩

/-- JavaScript `Array.prototype.findIndex` over the meetings list,
returning the index of the first match (`none` models -1). -/
def findIdxFirst (p : Meeting → Bool) : List Meeting → Option Nat
  | [] => none
  | x :: xs => if p x then some 0 else (findIdxFirst p xs).map (· + 1)

/-- The meetings-list refresh of `useMeetings` mutations
(`useMeetings.ts`, lines 270-275): replace the first list entry whose
`id` matches, if any. -/
def updListFirst (mid : String) (m' : Meeting) (l : List Meeting) : List Meeting :=
  match findIdxFirst (fun mm => mm.id == mid) l with
  | some i => l.set i m'
  | none => l

/-- `clearMeetingTranscriptAndSummary(meetingId)` (`useMeetings.ts`,
lines 245-285): PUT `{transcript: "", summary: {}}`; on success update
`currentMeeting` (when its id matches) and the meetings list; on
failure record the message in `error` and resolve with `null`. -/
def clearMeetingTranscriptAndSummary (mid : String)
    (res : Except String Meeting)
    (h : MeetingsHookState) : HookOut (Option Meeting) :=
  let h0 := {h with loading := true, error := none}
  match res with
  | .ok um =>
    let hits : Bool := match h0.currentMeeting with
      | some cm => cm.id == mid
      | none => false
    let h1 := {h0 with currentMeeting :=
      if hits then some um else h0.currentMeeting}
    let h2 := {h1 with meetings := updListFirst mid um h1.meetings}
    ⟨{h2 with loading := false}, some um, [true, false], [none]⟩
  | .error e =>
    let msg := errMsg e "Failed to clear meeting data"
    ⟨{h0 with loading := false, error := some msg}, none,
      [true, false], [none, some msg]⟩

/-- The reactive refs of one `useAudioFiles()` hook instance
(`useAudioFiles.ts`, lines 19-22). -/
structure AudioHookState where
  audioFiles : List AudioFile
  currentFile : Option AudioFile
  loading : Bool
  error : Option String
deriving DecidableEq, Repr

/-- The `{success, message}` body of a successful DELETE response. -/
structure DeleteResp where
  success : Bool
  message : String
deriving DecidableEq, Repr

/-- `fetchAudioFiles(groupId)` (`useAudioFiles.ts`, lines 69-87):
on failure records the message in `error` and resolves with `[]`. -/
def fetchAudioFiles (res : Except String (List AudioFile))
    (s : AudioHookState) : AudioHookState × List AudioFile :=
  let s0 := {s with loading := true, error := none}
  match res with
  | .ok d => ({s0 with audioFiles := d, loading := false}, d)
  | .error e =>
    ({s0 with loading := false
              error := some (errMsg e "Failed to fetch audio files")}, [])

/-- `deleteAudioFile(fileId)` (`useAudioFiles.ts`, lines 148-174): on
success drop the file from the local refs; on failure record the
message in `error` and resolve with `null`.  It never rethrows. -/
def deleteAudioFile (res : Except String DeleteResp) (fileId : String)
    (s : AudioHookState) : AudioHookState × Option DeleteResp :=
  let s0 := {s with loading := true, error := none}
  match res with
  | .ok d =>
    let s1 := {s0 with currentFile :=
      match s0.currentFile with
      | some cf => if cf.id == fileId then none else some cf
      | none => none}
    let s2 := {s1 with audioFiles := s1.audioFiles.filter (fun f => !(f.id == fileId))}
    ({s2 with loading := false}, some d)
  | .error e =>
    ({s0 with loading := false
              error := some (errMsg e "Failed to delete audio file")}, none)

/-- `uploadAudioFile(file, groupId, meetingDatetime?, meetingId?)`
(`useAudioFiles.ts`, lines 177-222): POST the form data, then on
success refresh the group file list via `fetchAudioFiles`; on failure
record the message in `error` and resolve with `null`. -/
def uploadAudioFile (uploadRes : Except String AudioFile)
    (listRes : Except String (List AudioFile))
    (s : AudioHookState) : AudioHookState × Option AudioFile :=
  let s0 := {s with loading := true, error := none}
  match uploadRes with
  | .ok d =>
    let s1 := (fetchAudioFiles listRes s0).1
    ({s1 with loading := false}, some d)
  | .error e =>
    ({s0 with loading := false
              error := some (errMsg e "Failed to upload audio file")}, none)

/-- The local state of one `MeetingDetailsContainer` instance
(`MeetingDetailsContainer.vue`, lines 36-68): the route's meeting id,
the two hook instances, and the container refs. -/
structure ViewState where
  meetingId : String
  hook : MeetingsHookState
  audioHook : AudioHookState
  audioFiles : List AudioFile
  pollingInterval : Option Nat
  pollCount : Nat
  timers : List Nat
  nextTimerId : Nat
  showDeleteDialog : Bool
  audioToDelete : Option AudioFile
  deleteError : Option String
  deletingAudio : List String
deriving DecidableEq, Repr

/-- `MAX_POLL_COUNT` (`MeetingDetailsContainer.vue`, line 68). -/
def MAX_POLL_COUNT : Nat := 60

/-- The `isWaitingForProcessing` computed of the view, over the hook's
`currentMeeting` and the container's `audioFiles`. -/
def isWaitingView (s : ViewState) : Bool :=
  isWaitingForProcessingOf s.hook.currentMeeting s.audioFiles

/-- The status the view displays, as classified by `resolve`. -/
def displayedStatus (s : ViewState) : ProcessingStatus :=
  resolve s.hook.currentMeeting s.audioFiles

/-- `stopPolling` (`MeetingDetailsContainer.vue`, lines 168-173):
clear the interval, if any, and null the handle.  The `timers` field
tracks which `window.setInterval` timers are still live. -/
def stopPolling (s : ViewState) : ViewState :=
  match s.pollingInterval with
  | some tid => {s with timers := s.timers.erase tid, pollingInterval := none}
  | none => s

/-- `startPolling` (`MeetingDetailsContainer.vue`, lines 121-131, the
synchronous part): clear any existing interval, reset the poll count,
and register a fresh interval timer. -/
def startPolling (s : ViewState) : ViewState :=
  let s1 := stopPolling s
  let s2 := {s1 with pollCount := 0}
  {s2 with timers := s2.timers ++ [s2.nextTimerId]
           pollingInterval := some s2.nextTimerId
           nextTimerId := s2.nextTimerId + 1}

/-- The outcomes of the network requests one polling iteration can
issue: the meeting GET and the audio-list GET. -/
structure TickEnv where
  meetingRes : Except String Meeting
  audioRes : Except String (List AudioFile)
deriving Repr

/-- The interval callback of `startPolling`
(`MeetingDetailsContainer.vue`, lines 129-164): bump `pollCount`; stop
when it reaches `MAX_POLL_COUNT` (no fetch on that iteration);
otherwise silently re-fetch the meeting and, when that succeeds, the
audio list (the `if (audioData)` guard is always taken: a JavaScript
array, even empty, is truthy), then stop if transcript and summary are
both present.  The hook-level `try/catch` inside `fetchMeeting` and
`fetchAudioByMeetingId` means the loop's own `catch` is never reached.
Returns the new state, whether any fetch was issued, and the writes to
the shared `loading` ref. -/
def pollTickBody (env : TickEnv) (s : ViewState) : ViewState × Bool × List Bool :=
  let cnt := s.pollCount + 1
  let s0 := {s with pollCount := cnt}
  if MAX_POLL_COUNT ≤ cnt then (stopPolling s0, false, [])
  else
    let o1 := fetchMeeting false env.meetingRes s0.hook
    let s1 := {s0 with hook := o1.state}
    match o1.result with
    | none => (s1, true, o1.loadW)
    | some m =>
      let s2 := {s1 with hook := {s1.hook with currentMeeting := some m}}
      let o2 := fetchAudioByMeetingId false env.audioRes s2.hook
      let s3 := {s2 with hook := o2.state, audioFiles := o2.result}
      let s4 :=
        if hasTranscriptContent (some m) && hasSummaryContent (some m) then
          stopPolling s3
        else s3
      (s4, true, o1.loadW ++ o2.loadW)

/-- One firing of the polling timer, composed with the
`watch(isWaitingForProcessing, ...)` reaction
(`MeetingDetailsContainer.vue`, lines 176-184): the watcher runs only
when the computed value changed, starting polling when it became true
and stopping it when it became false.  If no timer is registered,
nothing runs. -/
def pollTick (env : TickEnv) (s : ViewState) : ViewState × Bool × List Bool :=
  match s.pollingInterval with
  | none => (s, false, [])
  | some _ =>
    let before := isWaitingView s
    let r := pollTickBody env s
    let after := isWaitingView r.1
    let s' := if before = after then r.1
      else if after then startPolling r.1 else stopPolling r.1
    (s', r.2.1, r.2.2)

/-- Iterated polling: fire the timer once per entry of `envs`. -/
def runPolls : List TickEnv → ViewState → ViewState
  | [], s => s
  | env :: rest, s => runPolls rest (pollTick env s).1

/-- `loadMeetingData` (`MeetingDetailsContainer.vue`, lines 106-118):
the initial page load; both fetches run with the default
`showLoading = true`. -/
def loadMeetingData (env : TickEnv) (s : ViewState) : ViewState × List Bool :=
  let o1 := fetchMeeting true env.meetingRes s.hook
  let o2 := fetchAudioByMeetingId true env.audioRes o1.state
  ({s with hook := o2.state, audioFiles := o2.result}, o1.loadW ++ o2.loadW)

/-- A request the delete-audio flow sends to the backend, in issue
order. -/
inductive ServerOp where
  | deleteAudioReq (fileId : String)
  | clearReq (meetingId : String)
  | fetchReq (meetingId : String)
deriving DecidableEq, Repr

/-- The outcomes of the three requests the delete-audio flow can
issue. -/
structure DeleteFlowEnv where
  deleteRes : Except String DeleteResp
  clearRes : Except String Meeting
  refetchRes : Except String Meeting
deriving Repr

/-- `confirmDeleteAudio` (`MeetingDetailsContainer.vue`, lines 210-240)
together with the `watch(isWaitingForProcessing, ...)` reaction.  The
server-side audio store is threaded through: the DELETE endpoint
removes the record exactly when the request succeeds (modelled from the
spec's AudioRecord store `delete(id)`; the backend itself is not under
src/).  Because every hook call catches its own failure, the flow's
`catch` block (which would set `deleteError`) is unreachable and each
step runs regardless of the previous step's success.  Returns the
server store, the view state, the ordered list of requests issued, and
the writes to the shared meetings-hook `error` ref made by the clear
and refetch steps. -/
def confirmDeleteAudio (env : DeleteFlowEnv) (serverAudio : List AudioFile)
    (s : ViewState) :
    List AudioFile × ViewState × List ServerOp × List (Option String) :=
  match s.audioToDelete with
  | none => (serverAudio, s, [], [])
  | some file =>
    let fid := file.id
    let s0 := {s with deletingAudio := fid :: s.deletingAudio
                      deleteError := none}
    let serverAudio1 := match env.deleteRes with
      | .ok _ => serverAudio.filter (fun f => !(f.id == fid))
      | .error _ => serverAudio
    let s1 := {s0 with audioHook := (deleteAudioFile env.deleteRes fid s0.audioHook).1}
    let s2 := {s1 with audioFiles := s1.audioFiles.filter (fun f => !(f.id == fid))}
    let step3 : ViewState × List ServerOp × List (Option String) :=
      match s2.hook.currentMeeting with
      | some _ =>
        let o := clearMeetingTranscriptAndSummary s2.meetingId env.clearRes s2.hook
        ({s2 with hook := o.state}, [ServerOp.clearReq s2.meetingId], o.errW)
      | none => (s2, [], [])
    let s3 := {step3.1 with showDeleteDialog := false, audioToDelete := none}
    let o4 := fetchMeeting true env.refetchRes s3.hook
    let s4 := {s3 with hook := o4.state}
    let s5 := {s4 with deletingAudio := s4.deletingAudio.erase fid}
    let before := isWaitingView s
    let after := isWaitingView s5
    let s6 := if before = after then s5
      else if after then startPolling s5 else stopPolling s5
    (serverAudio1, s6,
      ServerOp.deleteAudioReq fid :: step3.2.1 ++ [ServerOp.fetchReq s3.meetingId],
      step3.2.2 ++ o4.errW)

/-- The error taxonomy of the spec's Lifecycle Coordinator. -/
inductive AttachError where
  | conflictError
  | notFoundError
deriving DecidableEq, Repr

/-- Modelled from the spec: the backend Lifecycle Coordinator's
`attachAudio(meetingId, newRecord)` (the backend enforcing the
at-most-one-audio-per-meeting invariant is not under src/; only its
frontend callers `uploadAudioFile` / `assignAudioToMeeting` are).  It
fails with `ConflictError` if an AudioRecord already exists for
`meetingId`, and otherwise stores the new record bound to the
meeting. -/
def attachAudio (store : List AudioFile) (meetingId : String)
    (newRecord : AudioFile) : Except AttachError (List AudioFile) :=
  if store.any (fun f => f.meeting_id == some meetingId) then
    .error .conflictError
  else
    .ok (store ++ [{newRecord with meeting_id := some meetingId}])

/-- The number of audio records associated with a meeting. -/
def audioCountFor (store : List AudioFile) (meetingId : String) : Nat :=
  (store.filter (fun f => f.meeting_id == some meetingId)).length

/-- The audio store after an attach attempt: unchanged when the attempt
failed. -/
def attachResultStore (store : List AudioFile) (meetingId : String)
    (newRecord : AudioFile) : List AudioFile :=
  match attachAudio store meetingId newRecord with
  | .ok s => s
  | .error _ => store

/-- Modelled from the spec: the Meeting store's `update(id, partialFields)`
applied with `{transcript: "", summary: {}}` — the documented way to
reach the "derived fields cleared" state (the backend PUT handler is
not under src/; its caller `clearMeetingTranscriptAndSummary` is). -/
def clearMeetingOnServer (m : Meeting) : Meeting :=
  {m with transcript := some "", summary := some []}

/-- The owning meeting's server row together with one `useMeetings`
hook instance observing it. -/
structure ClientServer where
  server : Meeting
  hook : MeetingsHookState
deriving DecidableEq, Repr

/-- One successful `clearDerived` round trip: the server applies the
clearing update and the hook consumes the updated row it returns. -/
def clearDerivedStep (cs : ClientServer) : ClientServer :=
  let m' := clearMeetingOnServer cs.server
  { server := m'
    hook := (clearMeetingTranscriptAndSummary cs.server.id (.ok m') cs.hook).state }

/-- A concrete audio record attached to meeting `m1`. -/
def sampleAudio : AudioFile :=
  ⟨"a1", "g1", "audio", "g1/a1.wav", some "a1.wav", some "audio/wav",
    some 1024, some "2025-01-01T10:00:00Z", some "m1", "2025-01-01T10:05:00Z"⟩

/-- A concrete meeting still waiting for its transcript and summary. -/
def sampleMeetingProcessing : Meeting :=
  ⟨"m1", "g1", "Weekly sync", "2025-01-01T10:00:00Z", none, none,
    "2025-01-01T09:00:00Z"⟩

/-- A concrete meeting whose transcript and summary are present. -/
def sampleMeetingReady : Meeting :=
  ⟨"m1", "g1", "Weekly sync", "2025-01-01T10:00:00Z", some "hello world",
    some [("summary", "recap")], "2025-01-01T09:00:00Z"⟩

/-- A concrete meeting whose derived fields are already cleared. -/
def sampleMeetingCleared : Meeting :=
  ⟨"m1", "g1", "Weekly sync", "2025-01-01T10:00:00Z", some "", some [],
    "2025-01-01T09:00:00Z"⟩

/-- A meetings-hook state observing the processing meeting. -/
def sampleHook : MeetingsHookState :=
  ⟨[sampleMeetingProcessing], some sampleMeetingProcessing, [sampleAudio],
    false, none⟩

/-- An audio-hook state holding the one attached record. -/
def sampleAudioHook : AudioHookState :=
  ⟨[sampleAudio], none, false, none⟩

/-- A view state in the middle of polling: timer 0 is registered and the
displayed status is `processing`. -/
def sampleViewPolling : ViewState :=
  ⟨"m1", sampleHook, sampleAudioHook, [sampleAudio], some 0, 0, [0], 1,
    false, none, none, []⟩

/-- The view state an in-bounds polling iteration with two successful
fetches reaches just before its completion check: the count is bumped,
the fresh meeting and audio list are installed, the shared error ref is
reset. -/
def bodyState (s : ViewState) (m : Meeting) (a : List AudioFile) : ViewState :=
  {s with pollCount := s.pollCount + 1
          hook := {s.hook with currentMeeting := some m
                               meetingAudioFiles := a
                               error := none}
          audioFiles := a}

/-- A polling iteration that does not observe a terminal status: either
its meeting fetch fails (nothing is observed), or both fetches succeed
and the fetched state still resolves to `processing`. -/
def nonTerminalEnv (env : TickEnv) : Bool :=
  match env.meetingRes with
  | .error _ => true
  | .ok m =>
    match env.audioRes with
    | .error _ => false
    | .ok a => resolve (some m) a == .processing

/-- A polling iteration whose two fetches both succeed but still see the
meeting without transcript or summary. -/
def sampleEnvProcessing : TickEnv :=
  ⟨.ok sampleMeetingProcessing, .ok [sampleAudio]⟩

/-- A view state at the moment the user confirms deletion of the only
audio recording: the dialog is open and no polling timer runs. -/
def sampleViewDelete : ViewState :=
  ⟨"m1", sampleHook, sampleAudioHook, [sampleAudio], none, 0, [], 1,
    true, some sampleAudio, none, []⟩

/-- The delete-flow environment in which the DELETE request itself
fails while the later requests succeed. -/
def sampleEnvDeleteFails : DeleteFlowEnv :=
  ⟨.error "network down", .ok sampleMeetingCleared, .ok sampleMeetingCleared⟩

/-- The delete-flow environment in which the delete succeeds, the clear
fails, and the final refetch succeeds. -/
def sampleEnvClearFails : DeleteFlowEnv :=
  ⟨.ok ⟨true, "deleted"⟩, .error "db write failed", .ok sampleMeetingCleared⟩

theorem hasTranscriptContent_iff (mm : Meeting) :
    hasTranscriptContent (some mm) = true ↔ specHasTranscript mm := by
  obtain ⟨i, g, n, d, tr, su, c⟩ := mm
  unfold hasTranscriptContent specHasTranscript
  cases tr with
  | none => simp
  | some t =>
    simp only [Bool.and_eq_true, bne_iff_ne, ne_eq, Option.some.injEq]
    constructor
    · rintro ⟨_, h2⟩
      exact ⟨t, rfl, h2⟩
    · rintro ⟨t', ht', htrim⟩
      subst ht'
      refine ⟨?_, htrim⟩
      intro he
      subst he
      exact htrim (by decide)

theorem hasSummaryContent_iff (mm : Meeting) :
    hasSummaryContent (some mm) = true ↔ specHasSummary mm := by
  obtain ⟨i, g, n, d, tr, su, c⟩ := mm
  unfold hasSummaryContent specHasSummary
  cases su with
  | none => simp
  | some fields =>
    simp only [Option.some.injEq]
    constructor
    · intro hc
      by_cases hlen : (fields.length == 0) = true
      · rw [if_pos hlen] at hc
        exact absurd hc (by simp)
      · rw [if_neg hlen] at hc
        cases hl : fields.lookup "summary" with
        | none => rw [hl] at hc; exact absurd hc (by simp)
        | some v =>
          rw [hl] at hc
          simp only [bne_iff_ne, ne_eq] at hc
          refine ⟨fields, rfl, ?_, v, hl, hc⟩
          have : fields.length ≠ 0 := by
            intro hz
            simp [hz] at hlen
          omega
    · rintro ⟨fields', hf, hlen, v, hl, hv⟩
      obtain rfl : fields = fields' := hf
      have hz : (fields.length == 0) = false := by
        simp only [beq_eq_false_iff_ne, ne_eq]
        omega
      rw [hz]
      simp only [Bool.false_eq_true, if_false, hl, bne_iff_ne, ne_eq]
      exact hv

/-- Claim C1: the processing-status resolver, for every meeting and every
list of associated audio records, returns `empty` iff the audio list is
empty, `ready` iff the list is non-empty and both `hasTranscript` and
`hasSummary` hold, and `processing` otherwise, where `hasTranscript`
means the transcript is non-null and non-empty after trimming whitespace
and `hasSummary` means the summary is non-null, has at least one key and
has a non-empty `summary` field. -/
theorem resolve_trichotomy (mm : Meeting) (audio : List AudioFile) :
    (resolve (some mm) audio = .empty ↔ audio = []) ∧
    (resolve (some mm) audio = .ready ↔
      audio ≠ [] ∧ specHasTranscript mm ∧ specHasSummary mm) ∧
    (resolve (some mm) audio = .processing ↔
      audio ≠ [] ∧ ¬(specHasTranscript mm ∧ specHasSummary mm)) := by
  unfold resolve isWaitingForProcessingOf
  by_cases hnil : audio = []
  · subst hnil
    simp
  · have hlen : (audio.length == 0) = false := by
      simp only [beq_eq_false_iff_ne, ne_eq]
      intro hz
      exact hnil (List.length_eq_zero.mp hz)
    have hpos : (decide (0 < audio.length)) = true := by
      simp only [decide_eq_true_eq]
      cases audio with
      | nil => exact absurd rfl hnil
      | cons a l => simp
    rw [hlen]
    by_cases ht : hasTranscriptContent (some mm) = true
    · by_cases hs : hasSummaryContent (some mm) = true
      · simp only [Bool.not_eq_true'] at *
        simp [hpos, ht, hs, hnil,
          (hasTranscriptContent_iff mm).mp ht, (hasSummaryContent_iff mm).mp hs]
      · have hs' : hasSummaryContent (some mm) = false := by
          cases hsv : hasSummaryContent (some mm) with
          | true => exact absurd hsv hs
          | false => rfl
        have hnspec : ¬ specHasSummary mm := fun hc =>
          hs ((hasSummaryContent_iff mm).mpr hc)
        simp [hpos, ht, hs', hnil, hnspec]
    · have ht' : hasTranscriptContent (some mm) = false := by
        cases htv : hasTranscriptContent (some mm) with
        | true => exact absurd htv ht
        | false => rfl
      have hnspec : ¬ specHasTranscript mm := fun hc =>
        ht ((hasTranscriptContent_iff mm).mpr hc)
      simp [hpos, ht', hnil, hnspec]

/-- Claim C10: no exported async operation of the data hooks ever
rejects or throws to its caller.  Each of `deleteAudioFile`,
`uploadAudioFile`, `fetchMeeting` and `clearMeetingTranscriptAndSummary`
is a total function of the request outcome (the catch-all in the source
leaves no throwing path), and on any failure of the underlying request
it records the message in the hook's `error` ref and resolves normally
with `null`, so a caller awaiting it cannot distinguish failure from
success via try/catch. -/
theorem hooks_never_reject (e : String) (s : AudioHookState)
    (h : MeetingsHookState) (fid mid : String)
    (listRes : Except String (List AudioFile)) :
    (deleteAudioFile (.error e) fid s).2 = none ∧
    (deleteAudioFile (.error e) fid s).1.error
      = some (errMsg e "Failed to delete audio file") ∧
    (uploadAudioFile (.error e) listRes s).2 = none ∧
    (uploadAudioFile (.error e) listRes s).1.error
      = some (errMsg e "Failed to upload audio file") ∧
    (fetchMeeting true (.error e) h).result = none ∧
    (fetchMeeting true (.error e) h).state.error
      = some (errMsg e "Failed to fetch meeting") ∧
    (clearMeetingTranscriptAndSummary mid (.error e) h).result = none ∧
    (clearMeetingTranscriptAndSummary mid (.error e) h).state.error
      = some (errMsg e "Failed to clear meeting data") :=
  ⟨rfl, rfl, rfl, rfl, rfl, rfl, rfl, rfl⟩

theorem fetchMeeting_silent_loadW (res : Except String Meeting)
    (h : MeetingsHookState) :
    (fetchMeeting false res h).loadW = [] ∧
    (fetchMeeting false res h).state.loading = h.loading := by
  cases res <;> simp [fetchMeeting]

theorem fetchAudio_silent_loadW (res : Except String (List AudioFile))
    (h : MeetingsHookState) :
    (fetchAudioByMeetingId false res h).loadW = [] ∧
    (fetchAudioByMeetingId false res h).state.loading = h.loading := by
  cases res <;> simp [fetchAudioByMeetingId]

theorem stopPolling_hook (s : ViewState) : (stopPolling s).hook = s.hook := by
  unfold stopPolling
  cases s.pollingInterval <;> rfl

theorem startPolling_hook (s : ViewState) : (startPolling s).hook = s.hook := by
  unfold startPolling
  rw [stopPolling_hook]

/-- Claim C9: every fetch performed from inside the polling loop is
silent with respect to the shared loading indicator — a polling tick
performs no write at all to the `loading` ref, so the flag is identical
before and after — unlike the initial page load `loadMeetingData`,
whose two fetches toggle it on and off. -/
theorem polling_fetches_silent (env : TickEnv) (s : ViewState)
    (env2 : TickEnv) (s2 : ViewState) :
    (pollTick env s).2.2 = [] ∧
    (pollTick env s).1.hook.loading = s.hook.loading ∧
    (loadMeetingData env2 s2).2 = [true, false, true, false] := by
  refine ⟨?_, ?_, ?_⟩
  · unfold pollTick
    cases hpi : s.pollingInterval with
    | none => rfl
    | some tid =>
      simp only
      unfold pollTickBody
      by_cases hc : MAX_POLL_COUNT ≤ s.pollCount + 1
      · simp [hc]
      · simp only [hc, if_false]
        cases henv : env.meetingRes with
        | error e => simp [fetchMeeting]
        | ok m =>
          simp only [fetchMeeting]
          cases henv2 : env.audioRes <;>
            simp [fetchAudioByMeetingId]
  · unfold pollTick
    cases hpi : s.pollingInterval with
    | none => rfl
    | some tid =>
      simp only
      have hbody : (pollTickBody env s).1.hook.loading = s.hook.loading := by
        unfold pollTickBody
        by_cases hc : MAX_POLL_COUNT ≤ s.pollCount + 1
        · simp [hc, stopPolling_hook]
        · simp only [hc, if_false]
          cases henv : env.meetingRes with
          | error e => simp [fetchMeeting]
          | ok m =>
            simp only [fetchMeeting]
            cases henv2 : env.audioRes <;>
              split <;>
              simp_all [fetchAudioByMeetingId, stopPolling_hook]
      split
      · exact hbody
      · split <;> simp [startPolling_hook, stopPolling_hook, hbody]
  · unfold loadMeetingData
    cases henv : env2.meetingRes <;> cases henv2 : env2.audioRes <;>
      simp [fetchMeeting, fetchAudioByMeetingId]

/-- Claim C6: at most one polling timer is ever active per controller
instance — calling `startPolling` while polling is already active
cancels the existing timer and resets the iteration counter to zero
rather than creating a second concurrent timer. -/
theorem startPolling_single_timer (s : ViewState) (tid : Nat)
    (h1 : s.pollingInterval = some tid) (h2 : s.timers = [tid])
    (h3 : tid < s.nextTimerId) :
    (startPolling s).timers = [s.nextTimerId] ∧
    (startPolling s).timers.length = 1 ∧
    (startPolling s).pollCount = 0 ∧
    (startPolling s).pollingInterval = some s.nextTimerId ∧
    tid ∉ (startPolling s).timers := by
  unfold startPolling stopPolling
  rw [h1]
  simp only [h2]
  refine ⟨?_, ?_, ?_, ?_, ?_⟩ <;>
    simp [List.erase_cons_head, Nat.ne_of_lt h3]

theorem startPolling_single_timer_witness :
    (sampleViewPolling.pollingInterval = some 0 ∧
      sampleViewPolling.timers = [0] ∧ 0 < sampleViewPolling.nextTimerId) ∧
    ((startPolling sampleViewPolling).timers = [sampleViewPolling.nextTimerId] ∧
      (startPolling sampleViewPolling).timers.length = 1 ∧
      (startPolling sampleViewPolling).pollCount = 0 ∧
      (startPolling sampleViewPolling).pollingInterval
        = some sampleViewPolling.nextTimerId ∧
      0 ∉ (startPolling sampleViewPolling).timers) :=
  ⟨⟨rfl, rfl, by decide⟩,
    startPolling_single_timer sampleViewPolling 0 rfl rfl (by decide)⟩

/-- Claim C2: attaching a second audio record to a meeting that already
has one always fails with `ConflictError` and never creates a second
record — the count of audio records for that meeting stays 1.
The enforcing backend is modelled from the spec (`attachAudio`). -/
theorem attachAudio_conflict (store : List AudioFile) (mid : String)
    (r : AudioFile) (h : audioCountFor store mid = 1) :
    attachAudio store mid r = .error .conflictError ∧
    audioCountFor (attachResultStore store mid r) mid = 1 := by
  have hpos : 0 < (store.filter (fun f => f.meeting_id == some mid)).length := by
    unfold audioCountFor at h
    omega
  have hany : store.any (fun f => f.meeting_id == some mid) = true := by
    obtain ⟨x, hx⟩ := List.exists_mem_of_length_pos hpos
    rw [List.any_eq_true]
    exact ⟨x, (List.mem_filter.mp hx).1, (List.mem_filter.mp hx).2⟩
  have herr : attachAudio store mid r = .error .conflictError := by
    unfold attachAudio
    rw [hany]
    rfl
  refine ⟨herr, ?_⟩
  unfold attachResultStore
  rw [herr]
  exact h

theorem attachAudio_conflict_witness :
    audioCountFor [sampleAudio] "m1" = 1 ∧
    (attachAudio [sampleAudio] "m1" sampleAudio = .error .conflictError ∧
      audioCountFor (attachResultStore [sampleAudio] "m1" sampleAudio) "m1" = 1) :=
  ⟨by decide, attachAudio_conflict [sampleAudio] "m1" sampleAudio (by decide)⟩

theorem findIdxFirst_set (p : Meeting → Bool) (m' : Meeting)
    (hp : p m' = true) :
    ∀ (xs : List Meeting) (j : Nat), findIdxFirst p xs = some j →
      findIdxFirst p (xs.set j m') = some j := by
  intro xs
  induction xs with
  | nil => intro j hj; simp [findIdxFirst] at hj
  | cons y ys ih =>
    intro j hj
    by_cases hy : p y = true
    · simp only [findIdxFirst, hy, if_true, Option.some.injEq] at hj
      subst hj
      simp [List.set, findIdxFirst, hp]
    · have hy' : p y = false := by
        cases hv : p y with
        | true => exact absurd hv hy
        | false => rfl
      simp only [findIdxFirst, hy', Bool.false_eq_true, if_false] at hj
      obtain ⟨j', hj', rfl⟩ := Option.map_eq_some'.mp hj
      simp only [List.set, findIdxFirst, hy', Bool.false_eq_true, if_false,
        ih j' hj', Option.map_some']

theorem updListFirst_idem (mid : String) (m' : Meeting)
    (hp : (m'.id == mid) = true) (l : List Meeting) :
    updListFirst mid m' (updListFirst mid m' l) = updListFirst mid m' l := by
  unfold updListFirst
  cases hf : findIdxFirst (fun mm => mm.id == mid) l with
  | none => rw [hf]
  | some i =>
    simp only [hf, findIdxFirst_set _ m' hp l i hf, List.set_set]

theorem clearHook_idem (mid : String) (um : Meeting) (hid : um.id = mid)
    (h : MeetingsHookState) :
    (clearMeetingTranscriptAndSummary mid (.ok um)
      (clearMeetingTranscriptAndSummary mid (.ok um) h).state).state
      = (clearMeetingTranscriptAndSummary mid (.ok um) h).state := by
  have hum : (um.id == mid) = true := by
    simp [hid]
  unfold clearMeetingTranscriptAndSummary
  cases hcm : h.currentMeeting with
  | none =>
    simp only [hcm]
    simp [updListFirst_idem mid um hum]
  | some cm =>
    by_cases hcmid : (cm.id == mid) = true
    · simp only [hcm, hcmid]
      simp [hum, updListFirst_idem mid um hum]
    · have hcmid' : (cm.id == mid) = false := by
        cases hv : (cm.id == mid) with
        | true => exact absurd hv hcmid
        | false => rfl
      simp only [hcm, hcmid']
      simp [hcmid', updListFirst_idem mid um hum]

/-- Claim C8: clearing a meeting's derived fields is idempotent —
running the clear round trip twice yields the same final state (server
row and hook refs) as running it once, with transcript `""` and summary
`{}`, and the server update is a no-op when the fields are already
empty. -/
theorem clearDerived_idempotent (cs : ClientServer) (m : Meeting) :
    clearDerivedStep (clearDerivedStep cs) = clearDerivedStep cs ∧
    (m.transcript = some "" ∧ m.summary = some [] →
      clearMeetingOnServer m = m) := by
  constructor
  · show clearDerivedStep (clearDerivedStep cs) = clearDerivedStep cs
    unfold clearDerivedStep
    simp only [clearMeetingOnServer]
    have hid : ({cs.server with transcript := some "", summary := some []} : Meeting).id
        = cs.server.id := rfl
    rw [clearHook_idem cs.server.id _ hid cs.hook]
  · rintro ⟨h1, h2⟩
    obtain ⟨i, g, n, d, tr, su, c⟩ := m
    simp only at h1 h2
    subst h1
    subst h2
    rfl

theorem clearDerived_idempotent_witness :
    (sampleMeetingCleared.transcript = some "" ∧
      sampleMeetingCleared.summary = some []) ∧
    clearMeetingOnServer sampleMeetingCleared = sampleMeetingCleared ∧
    clearDerivedStep (clearDerivedStep ⟨sampleMeetingProcessing, sampleHook⟩)
      = clearDerivedStep ⟨sampleMeetingProcessing, sampleHook⟩ :=
  ⟨⟨rfl, rfl⟩,
    (clearDerived_idempotent ⟨sampleMeetingProcessing, sampleHook⟩
      sampleMeetingCleared).2 ⟨rfl, rfl⟩,
    (clearDerived_idempotent ⟨sampleMeetingProcessing, sampleHook⟩
      sampleMeetingCleared).1⟩

theorem pollTick_inactive (env : TickEnv) (s : ViewState)
    (h : s.pollingInterval = none) : pollTick env s = (s, false, []) := by
  unfold pollTick
  rw [h]

theorem isWaitingView_stopPolling (s : ViewState) :
    isWaitingView (stopPolling s) = isWaitingView s := by
  unfold isWaitingView stopPolling
  cases s.pollingInterval <;> rfl

theorem pollTickBody_ok_ok (env : TickEnv) (s : ViewState) (m : Meeting)
    (a : List AudioFile)
    (hc : ¬ MAX_POLL_COUNT ≤ s.pollCount + 1)
    (h5 : env.meetingRes = .ok m) (h6 : env.audioRes = .ok a) :
    pollTickBody env s =
      (if hasTranscriptContent (some m) && hasSummaryContent (some m)
        then stopPolling (bodyState s m a) else bodyState s m a,
       true, ([] : List Bool)) := by
  unfold pollTickBody
  rw [if_neg hc, h5, h6]
  rfl

theorem isWaitingView_bodyState (s : ViewState) (m : Meeting)
    (a : List AudioFile) :
    isWaitingView (bodyState s m a) = isWaitingForProcessingOf (some m) a := rfl

/-- Claim C5: while polling is active, the first fetch whose fetched
state resolves to a status other than `processing` (either `ready`, or
`empty` because the audio was deleted concurrently) stops the polling
timer, and no further polling fetches occur afterwards. -/
theorem polling_stops_on_terminal (env : TickEnv) (s : ViewState)
    (tid : Nat) (m : Meeting) (a : List AudioFile)
    (h1 : s.pollingInterval = some tid) (h2 : s.timers = [tid])
    (h3 : s.pollCount + 1 < MAX_POLL_COUNT)
    (h4 : isWaitingView s = true)
    (h5 : env.meetingRes = .ok m) (h6 : env.audioRes = .ok a)
    (h7 : resolve (some m) a ≠ .processing) :
    (pollTick env s).2.1 = true ∧
    (pollTick env s).1.pollingInterval = none ∧
    (pollTick env s).1.timers = [] ∧
    ∀ env2, pollTick env2 (pollTick env s).1 = ((pollTick env s).1, false, []) := by
  have hc : ¬ (MAX_POLL_COUNT ≤ s.pollCount + 1) := by omega
  have hbody := pollTickBody_ok_ok env s m a hc h5 h6
  have hkey :
      (pollTick env s).2.1 = true ∧
      (pollTick env s).1.pollingInterval = none ∧
      (pollTick env s).1.timers = [] := by
    unfold pollTick
    rw [h1]
    simp only [hbody]
    by_cases hready :
        (hasTranscriptContent (some m) && hasSummaryContent (some m)) = true
    · have hT : hasTranscriptContent (some m) = true := by
        have := hready
        cases hv : hasTranscriptContent (some m) <;> simp_all
      have hS : hasSummaryContent (some m) = true := by
        cases hv : hasSummaryContent (some m) <;> simp_all
      have hafter : isWaitingForProcessingOf (some m) a = false := by
        unfold isWaitingForProcessingOf
        simp [hT, hS]
      rw [if_pos hready]
      rw [isWaitingView_stopPolling, isWaitingView_bodyState, h4, hafter]
      simp only [Bool.true_eq_false, if_false, Bool.false_eq_true]
      refine ⟨trivial, ?_, ?_⟩ <;>
        simp [stopPolling, bodyState, h1, h2]
    · have hready' :
          (hasTranscriptContent (some m) && hasSummaryContent (some m)) = false := by
        cases hv : (hasTranscriptContent (some m) && hasSummaryContent (some m)) with
        | true => exact absurd hv hready
        | false => rfl
      have ha : a = [] := by
        by_contra hne
        apply h7
        unfold resolve
        have hlen : (a.length == 0) = false := by
          simp only [beq_eq_false_iff_ne, ne_eq]
          intro hz
          exact hne (List.length_eq_zero.mp hz)
        have hwait : isWaitingForProcessingOf (some m) a = true := by
          unfold isWaitingForProcessingOf
          have hpos : (decide (0 < a.length)) = true := by
            simp only [decide_eq_true_eq]
            cases a with
            | nil => exact absurd rfl hne
            | cons x l => simp
          rw [hpos, Bool.true_and]
          cases hT : hasTranscriptContent (some m) <;>
            cases hS : hasSummaryContent (some m) <;>
            simp_all
        rw [hlen]
        simp [hwait]
      subst ha
      have hafter : isWaitingForProcessingOf (some m) ([] : List AudioFile) = false := by
        unfold isWaitingForProcessingOf
        simp
      rw [if_neg hready]
      rw [isWaitingView_bodyState, h4, hafter]
      simp only [Bool.true_eq_false, if_false, Bool.false_eq_true]
      refine ⟨trivial, ?_, ?_⟩ <;>
        simp [stopPolling, bodyState, h1, h2]
  refine ⟨hkey.1, hkey.2.1, hkey.2.2, ?_⟩
  intro env2
  exact pollTick_inactive env2 _ hkey.2.1

theorem polling_stops_on_terminal_witness :
    (sampleViewPolling.pollingInterval = some 0 ∧
      sampleViewPolling.timers = [0] ∧
      sampleViewPolling.pollCount + 1 < MAX_POLL_COUNT ∧
      isWaitingView sampleViewPolling = true ∧
      resolve (some sampleMeetingProcessing) [] ≠ .processing) ∧
    ((pollTick ⟨.ok sampleMeetingProcessing, .ok []⟩ sampleViewPolling).2.1 = true ∧
      (pollTick ⟨.ok sampleMeetingProcessing, .ok []⟩ sampleViewPolling).1.pollingInterval = none ∧
      (pollTick ⟨.ok sampleMeetingProcessing, .ok []⟩ sampleViewPolling).1.timers = [] ∧
      ∀ env2, pollTick env2 (pollTick ⟨.ok sampleMeetingProcessing, .ok []⟩ sampleViewPolling).1
        = ((pollTick ⟨.ok sampleMeetingProcessing, .ok []⟩ sampleViewPolling).1, false, [])) :=
  ⟨⟨rfl, rfl, by decide, by decide, by decide⟩,
    polling_stops_on_terminal ⟨.ok sampleMeetingProcessing, .ok []⟩
      sampleViewPolling 0 sampleMeetingProcessing [] rfl rfl (by decide)
      (by decide) rfl rfl (by decide)⟩

theorem pollTickBody_err (env : TickEnv) (s : ViewState) (e : String)
    (hc : ¬ MAX_POLL_COUNT ≤ s.pollCount + 1)
    (h5 : env.meetingRes = .error e) :
    pollTickBody env s =
      ({s with
          pollCount := s.pollCount + 1
          hook := {s.hook with
            error := some (errMsg e "Failed to fetch meeting")}},
        true, ([] : List Bool)) := by
  unfold pollTickBody
  rw [if_neg hc, h5]
  rfl

/-- Claim C7, counterexample to the claim as stated: a failing polling
fetch does change the view's blocking error state.  Starting from a
polling view whose shared error ref is `null`, one tick whose meeting
fetch fails with message "boom" leaves the shared error ref (the state
rendered by the view's blocking error branch) set to `some "boom"`. -/
theorem polling_error_changes_error_ref_cex :
    sampleViewPolling.hook.error = none ∧
    (pollTick ⟨.error "boom", .ok []⟩ sampleViewPolling).1.hook.error = some "boom" ∧
    (pollTick ⟨.error "boom", .ok []⟩ sampleViewPolling).1.hook.error
      ≠ sampleViewPolling.hook.error := by
  refine ⟨rfl, ?_, ?_⟩ <;> decide

/-- Claim C7, amended: exceptions inside the polling loop never stop the
timer — the failing tick leaves the interval registered, so polling
continues on the next interval — but the failing fetch records its
message in the shared meetings-hook `error` ref, which the view renders
as its blocking error state; errors outside the polling loop (a fetch
with `showLoading = true`, as in the initiating UI actions) propagate to
the same error ref. -/
theorem polling_error_swallowed_amended (env : TickEnv) (s : ViewState)
    (tid : Nat) (e : String)
    (h1 : s.pollingInterval = some tid)
    (h3 : s.pollCount + 1 < MAX_POLL_COUNT)
    (h5 : env.meetingRes = .error e) :
    (pollTick env s).2.1 = true ∧
    (pollTick env s).1.pollingInterval = some tid ∧
    (pollTick env s).1.hook.error = some (errMsg e "Failed to fetch meeting") ∧
    ∀ (e2 : String) (h : MeetingsHookState),
      (fetchMeeting true (.error e2) h).state.error
        = some (errMsg e2 "Failed to fetch meeting") := by
  have hc : ¬ (MAX_POLL_COUNT ≤ s.pollCount + 1) := by omega
  have hbody := pollTickBody_err env s e hc h5
  unfold pollTick
  rw [h1]
  simp only [hbody]
  refine ⟨trivial, ?_, ?_, fun e2 h => rfl⟩
  · split
    next => exact h1
    next hcond => exact absurd rfl hcond
  · split
    next => rfl
    next hcond => exact absurd rfl hcond

theorem polling_error_swallowed_amended_witness :
    (sampleViewPolling.pollingInterval = some 0 ∧
      sampleViewPolling.pollCount + 1 < MAX_POLL_COUNT) ∧
    ((pollTick ⟨.error "poll failed", .ok []⟩ sampleViewPolling).2.1 = true ∧
      (pollTick ⟨.error "poll failed", .ok []⟩ sampleViewPolling).1.pollingInterval = some 0 ∧
      (pollTick ⟨.error "poll failed", .ok []⟩ sampleViewPolling).1.hook.error
        = some (errMsg "poll failed" "Failed to fetch meeting") ∧
      ∀ (e2 : String) (h : MeetingsHookState),
        (fetchMeeting true (.error e2) h).state.error
          = some (errMsg e2 "Failed to fetch meeting")) :=
  ⟨⟨rfl, by decide⟩,
    polling_error_swallowed_amended ⟨.error "poll failed", .ok []⟩
      sampleViewPolling 0 "poll failed" rfl (by decide) rfl⟩

theorem resolve_eq_processing (m : Option Meeting) (a : List AudioFile) :
    resolve m a = .processing ↔ isWaitingForProcessingOf m a = true := by
  unfold resolve
  by_cases hnil : a = []
  · subst hnil
    simp [isWaitingForProcessingOf]
  · have hlen : (a.length == 0) = false := by
      simp only [beq_eq_false_iff_ne, ne_eq]
      intro hz
      exact hnil (List.length_eq_zero.mp hz)
    rw [hlen]
    simp only [Bool.false_eq_true, if_false]
    cases hw : isWaitingForProcessingOf m a <;> simp [hw]

theorem pollTick_nonterminal_inv (env : TickEnv) (s : ViewState) (tid : Nat)
    (h1 : s.pollingInterval = some tid) (h2 : s.timers = [tid])
    (hk : s.pollCount + 1 < MAX_POLL_COUNT)
    (h4 : isWaitingView s = true)
    (hnt : nonTerminalEnv env = true) :
    (pollTick env s).1.pollingInterval = some tid ∧
    (pollTick env s).1.timers = [tid] ∧
    (pollTick env s).1.pollCount = s.pollCount + 1 ∧
    isWaitingView (pollTick env s).1 = true := by
  have hc : ¬ (MAX_POLL_COUNT ≤ s.pollCount + 1) := by omega
  cases henv : env.meetingRes with
  | error e =>
    have hbody := pollTickBody_err env s e hc henv
    unfold pollTick
    rw [h1]
    simp only [hbody]
    refine ⟨?_, ?_, ?_, ?_⟩
    · split
      next => exact h1
      next hcond => exact absurd rfl hcond
    · split
      next => exact h2
      next hcond => exact absurd rfl hcond
    · split
      next => rfl
      next hcond => exact absurd rfl hcond
    · split
      next => exact h4
      next hcond => exact absurd rfl hcond
  | ok m =>
    cases henv2 : env.audioRes with
    | error e2 =>
      exfalso
      simp only [nonTerminalEnv, henv, henv2] at hnt
      exact Bool.false_ne_true hnt
    | ok a =>
      have hres : resolve (some m) a = .processing := by
        simp only [nonTerminalEnv, henv, henv2, beq_iff_eq] at hnt
        exact hnt
      have hwait : isWaitingForProcessingOf (some m) a = true :=
        (resolve_eq_processing _ _).mp hres
      have hready' :
          (hasTranscriptContent (some m) && hasSummaryContent (some m)) = false := by
        have hw := hwait
        unfold isWaitingForProcessingOf at hw
        simp only [Bool.and_eq_true] at hw
        cases hT : hasTranscriptContent (some m) <;>
          cases hS : hasSummaryContent (some m) <;>
          simp_all
      have hbody := pollTickBody_ok_ok env s m a hc henv henv2
      unfold pollTick
      rw [h1]
      simp only [hbody, hready', Bool.false_eq_true, if_false]
      rw [isWaitingView_bodyState, hwait, h4, if_pos rfl]
      exact ⟨h1, h2, rfl, by rw [isWaitingView_bodyState, hwait]⟩

theorem pollTick_expiry (env : TickEnv) (s : ViewState) (tid : Nat)
    (h1 : s.pollingInterval = some tid) (h2 : s.timers = [tid])
    (hk : MAX_POLL_COUNT ≤ s.pollCount + 1)
    (h4 : isWaitingView s = true) :
    (pollTick env s).1.pollingInterval = none ∧
    (pollTick env s).1.timers = [] ∧
    (pollTick env s).1.pollCount = s.pollCount + 1 ∧
    isWaitingView (pollTick env s).1 = true ∧
    (pollTick env s).2.1 = false := by
  have hbody : pollTickBody env s =
      (stopPolling {s with pollCount := s.pollCount + 1}, false, ([] : List Bool)) := by
    unfold pollTickBody
    rw [if_pos hk]
  unfold pollTick
  rw [h1]
  simp only [hbody]
  rw [isWaitingView_stopPolling]
  refine ⟨?_, ?_, ?_, ?_, trivial⟩
  · split
    next => simp [stopPolling, h1]
    next hcond => exact absurd rfl hcond
  · split
    next => simp [stopPolling, h1, h2]
    next hcond => exact absurd rfl hcond
  · split
    next => simp [stopPolling, h1]
    next hcond => exact absurd rfl hcond
  · split
    next => rw [isWaitingView_stopPolling]; exact h4
    next hcond => exact absurd rfl hcond

theorem runPolls_expires :
    ∀ (envs : List TickEnv) (s : ViewState) (tid k : Nat),
      s.pollingInterval = some tid → s.timers = [tid] → s.pollCount = k →
      isWaitingView s = true →
      k + envs.length = MAX_POLL_COUNT → envs ≠ [] →
      envs.all nonTerminalEnv = true →
      (runPolls envs s).pollingInterval = none ∧
      (runPolls envs s).timers = [] ∧
      (runPolls envs s).pollCount = MAX_POLL_COUNT ∧
      isWaitingView (runPolls envs s) = true := by
  intro envs
  induction envs with
  | nil =>
    intro s tid k _ _ _ _ _ hne _
    exact absurd rfl hne
  | cons env rest ih =>
    intro s tid k h1 h2 hk h4 hlen _ hall
    have hallp : nonTerminalEnv env = true ∧ rest.all nonTerminalEnv = true := by
      simp only [List.all_cons, Bool.and_eq_true] at hall
      exact hall
    by_cases hrest : rest = []
    · subst hrest
      have hk60 : MAX_POLL_COUNT ≤ s.pollCount + 1 := by
        simp only [List.length_cons, List.length_nil] at hlen
        omega
      have hstep := pollTick_expiry env s tid h1 h2 hk60 h4
      have hcount : s.pollCount + 1 = MAX_POLL_COUNT := by
        simp only [List.length_cons, List.length_nil] at hlen
        omega
      simp only [runPolls]
      exact ⟨hstep.1, hstep.2.1, by rw [hstep.2.2.1, hcount], hstep.2.2.2.1⟩
    · have hrlen : 0 < rest.length := List.length_pos.mpr hrest
      have hk1 : s.pollCount + 1 < MAX_POLL_COUNT := by
        simp only [List.length_cons] at hlen
        omega
      have hstep := pollTick_nonterminal_inv env s tid h1 h2 hk1 h4 hallp.1
      simp only [runPolls]
      refine ih (pollTick env s).1 tid (s.pollCount + 1)
        hstep.1 hstep.2.1 hstep.2.2.1 hstep.2.2.2 ?_ hrest hallp.2
      simp only [List.length_cons] at hlen
      omega

theorem isWaiting_displayed_processing (s : ViewState)
    (h : isWaitingView s = true) : displayedStatus s = .processing :=
  (resolve_eq_processing s.hook.currentMeeting s.audioFiles).mpr h

/-- Claim C4: the polling controller is bounded — once polling has
started (counter reset, timer registered), after `MAX_POLL_COUNT = 60`
consecutive timer iterations that never observe a terminal status the
timer is stopped permanently (a further tick performs no fetch), and
the view keeps displaying the last-known `processing` state rather than
reverting to `empty`. -/
theorem polling_bounded (envs : List TickEnv) (s : ViewState) (tid : Nat)
    (h1 : s.pollingInterval = some tid) (h2 : s.timers = [tid])
    (h3 : s.pollCount = 0) (h4 : isWaitingView s = true)
    (hlen : envs.length = MAX_POLL_COUNT)
    (hall : envs.all nonTerminalEnv = true) :
    (runPolls envs s).pollingInterval = none ∧
    (runPolls envs s).timers = [] ∧
    (runPolls envs s).pollCount = MAX_POLL_COUNT ∧
    displayedStatus (runPolls envs s) = .processing ∧
    ∀ env2, pollTick env2 (runPolls envs s) = ((runPolls envs s), false, []) := by
  have hne : envs ≠ [] := by
    intro he
    subst he
    simp [MAX_POLL_COUNT] at hlen
  have h := runPolls_expires envs s tid 0 h1 h2 h3 h4 (by omega) hne hall
  exact ⟨h.1, h.2.1, h.2.2.1,
    isWaiting_displayed_processing _ h.2.2.2,
    fun env2 => pollTick_inactive env2 _ h.1⟩

theorem polling_bounded_witness :
    (sampleViewPolling.pollingInterval = some 0 ∧
      sampleViewPolling.timers = [0] ∧
      sampleViewPolling.pollCount = 0 ∧
      isWaitingView sampleViewPolling = true ∧
      (List.replicate MAX_POLL_COUNT sampleEnvProcessing).length = MAX_POLL_COUNT ∧
      (List.replicate MAX_POLL_COUNT sampleEnvProcessing).all nonTerminalEnv = true) ∧
    ((runPolls (List.replicate MAX_POLL_COUNT sampleEnvProcessing) sampleViewPolling).pollingInterval = none ∧
      (runPolls (List.replicate MAX_POLL_COUNT sampleEnvProcessing) sampleViewPolling).timers = [] ∧
      (runPolls (List.replicate MAX_POLL_COUNT sampleEnvProcessing) sampleViewPolling).pollCount = MAX_POLL_COUNT ∧
      displayedStatus (runPolls (List.replicate MAX_POLL_COUNT sampleEnvProcessing) sampleViewPolling) = .processing ∧
      ∀ env2, pollTick env2 (runPolls (List.replicate MAX_POLL_COUNT sampleEnvProcessing) sampleViewPolling)
        = ((runPolls (List.replicate MAX_POLL_COUNT sampleEnvProcessing) sampleViewPolling), false, [])) :=
  ⟨⟨rfl, rfl, rfl, by decide, by decide, by decide⟩,
    polling_bounded (List.replicate MAX_POLL_COUNT sampleEnvProcessing)
      sampleViewPolling 0 rfl rfl rfl (by decide) (by decide) (by decide)⟩

theorem startPolling_deleteError (s : ViewState) :
    (startPolling s).deleteError = s.deleteError := by
  unfold startPolling stopPolling
  cases s.pollingInterval <;> rfl

theorem stopPolling_deleteError (s : ViewState) :
    (stopPolling s).deleteError = s.deleteError := by
  unfold stopPolling
  cases s.pollingInterval <;> rfl

theorem watcher_hook (c1 c2 : Prop) [Decidable c1] [Decidable c2]
    (s : ViewState) :
    (if c1 then s else if c2 then startPolling s else stopPolling s).hook
      = s.hook := by
  split
  · rfl
  · split
    · exact startPolling_hook s
    · exact stopPolling_hook s

theorem watcher_deleteError (c1 c2 : Prop) [Decidable c1] [Decidable c2]
    (s : ViewState) :
    (if c1 then s else if c2 then startPolling s else stopPolling s).deleteError
      = s.deleteError := by
  split
  · rfl
  · split
    · exact startPolling_deleteError s
    · exact stopPolling_deleteError s

/-- Claim C3, counterexample to the claim as stated: the clear step is
not gated on the delete having succeeded.  With the DELETE request
failing, `confirmDeleteAudio` still issues the clear request (the hook
swallowed the delete failure), while the audio record is still on the
server. -/
theorem delete_then_clear_not_success_gated_cex :
    sampleEnvDeleteFails.deleteRes = .error "network down" ∧
    ServerOp.clearReq "m1"
      ∈ (confirmDeleteAudio sampleEnvDeleteFails [sampleAudio] sampleViewDelete).2.2.1 ∧
    (confirmDeleteAudio sampleEnvDeleteFails [sampleAudio] sampleViewDelete).1
      = [sampleAudio] := by
  refine ⟨rfl, ?_, ?_⟩ <;> decide

/-- Claim C3, amended: in the delete-audio flow the three requests are
strictly ordered — the clear request is issued only after the delete
call has returned, and the refetch after the clear — but because the
delete hook swallows failures, the clear is attempted regardless of
whether the delete succeeded.  When the delete succeeds the record
stays deleted on the server whatever the clear outcome (no rollback);
a failing clear records its message in the shared meetings-hook error
ref (which the view renders), while the flow's own `deleteError` is
never set (its catch is unreachable) and a subsequent successful
refetch resets the shared error ref. -/
theorem delete_then_clear_ordering_amended (env : DeleteFlowEnv)
    (serverAudio : List AudioFile) (s : ViewState) (file : AudioFile)
    (m : Meeting)
    (hsel : s.audioToDelete = some file)
    (hcm : s.hook.currentMeeting = some m) :
    (confirmDeleteAudio env serverAudio s).2.2.1
      = [ServerOp.deleteAudioReq file.id, ServerOp.clearReq s.meetingId,
         ServerOp.fetchReq s.meetingId] ∧
    (∀ d, env.deleteRes = .ok d →
      (confirmDeleteAudio env serverAudio s).1
        = serverAudio.filter (fun f => !(f.id == file.id))) ∧
    (∀ e, env.clearRes = .error e →
      some (errMsg e "Failed to clear meeting data")
        ∈ (confirmDeleteAudio env serverAudio s).2.2.2) ∧
    (confirmDeleteAudio env serverAudio s).2.1.deleteError = none ∧
    (∀ m2, env.refetchRes = .ok m2 →
      (confirmDeleteAudio env serverAudio s).2.1.hook.error = none) := by
  obtain ⟨dRes, cRes, rRes⟩ := env
  unfold confirmDeleteAudio
  rw [hsel]
  simp only
  cases dRes <;> cases cRes <;> cases rRes <;>
    simp [hcm, deleteAudioFile, clearMeetingTranscriptAndSummary, fetchMeeting,
      watcher_hook, watcher_deleteError]

theorem delete_then_clear_ordering_amended_witness :
    (sampleViewDelete.audioToDelete = some sampleAudio ∧
      sampleViewDelete.hook.currentMeeting = some sampleMeetingProcessing) ∧
    ((confirmDeleteAudio sampleEnvClearFails [sampleAudio] sampleViewDelete).2.2.1
        = [ServerOp.deleteAudioReq sampleAudio.id, ServerOp.clearReq sampleViewDelete.meetingId,
           ServerOp.fetchReq sampleViewDelete.meetingId] ∧
      (∀ d, sampleEnvClearFails.deleteRes = .ok d →
        (confirmDeleteAudio sampleEnvClearFails [sampleAudio] sampleViewDelete).1
          = [sampleAudio].filter (fun f => !(f.id == sampleAudio.id))) ∧
      (∀ e, sampleEnvClearFails.clearRes = .error e →
        some (errMsg e "Failed to clear meeting data")
          ∈ (confirmDeleteAudio sampleEnvClearFails [sampleAudio] sampleViewDelete).2.2.2) ∧
      (confirmDeleteAudio sampleEnvClearFails [sampleAudio] sampleViewDelete).2.1.deleteError = none ∧
      (∀ m2, sampleEnvClearFails.refetchRes = .ok m2 →
        (confirmDeleteAudio sampleEnvClearFails [sampleAudio] sampleViewDelete).2.1.hook.error = none)) :=
  ⟨⟨rfl, rfl⟩,
    delete_then_clear_ordering_amended sampleEnvClearFails [sampleAudio]
      sampleViewDelete sampleAudio sampleMeetingProcessing rfl rfl⟩
